import Mathlib

/-!
Verification of the dir2pdf utility (src/dir2pdf.py) against its
natural-language specification.

The program is shallowly embedded: PIL images become a record of mode and
alpha-channel samples, the filesystem becomes explicit lists, side effects
(warnings and `Image.save` calls) become an explicit event trace, and an
uncaught Python exception becomes an `aborted` flag (or `none`).  Messages
are carried as strings so that warnings are distinguishable.
-/

namespace Dir2pdf

/-- A single quote character, used inside warning messages. -/
def squote : String := String.mk [Char.ofNat 39]

/-- The left brace character. -/
def lbrace : Char := Char.ofNat 123

/-- The right brace character. -/
def rbrace : Char := Char.ofNat 125

/-- The literal placeholder string used by the CLI. -/
def placeholderStr : String := String.mk [lbrace, rbrace]

/-- A PIL image: its color `mode` (for example "RGBA"), the samples of its
alpha channel (empty when the mode carries no alpha band in this model),
and an abstract identifier for its pixel content. -/
structure Image where
  mode : String
  alpha : List Nat
  content : Nat
deriving DecidableEq

/-- The color modes treated as alpha-bearing at src/dir2pdf.py line 58. -/
def alphaModes : List String := ["RGBA", "LA", "PA"]

/-- `Image.convert('RGB')`: the mode becomes "RGB" and the alpha band is
dropped; the pixel content identifier is preserved. -/
def convertRGB (im : Image) : Image :=
  { mode := "RGB", alpha := [], content := im.content }

/-- `ImagingCore.getextrema` on a channel: the minimum and maximum sample.
The empty case does not arise for real images. -/
def getextrema : List Nat → Nat × Nat
  | [] => (0, 0)
  | a :: rest => (rest.foldl Nat.min a, rest.foldl Nat.max a)

/-- A PDF document on disk: its pages (the flattened images written) and
the document metadata recorded when its first page was written. -/
structure PdfDoc where
  pages : List Image
  title : Option String
  author : Option String
  producer : Option String
deriving DecidableEq

/-- The arguments of one `Image.save(..., format='PDF', ...)` call. -/
structure SaveCall where
  image : Image
  path : String
  title : Option String
  author : Option String
  producer : Option String
  append : Bool
deriving DecidableEq

/-- An observable side effect: a warning or a save call. -/
inductive Event where
  | warn (msg : String)
  | save (c : SaveCall)
deriving DecidableEq

/-- Whether an event is a warning. -/
def Event.isWarn : Event → Bool
  | .warn _ => true
  | .save _ => false

/-- The PDF portion of the filesystem: an association of paths to PDF
documents present on disk. -/
def Fs : Type := List (String × PdfDoc)

/-- `Path.exists` / reading a PDF at a path. -/
def lookupFs (fs : Fs) (p : String) : Option PdfDoc :=
  (List.find? (fun kv => kv.1 = p) fs).map Prod.snd

/-- Write a document at a path, replacing any previous one. -/
def setFs (fs : Fs) (p : String) (d : PdfDoc) : Fs :=
  match fs with
  | [] => [(p, d)]
  | kv :: rest => if kv.1 = p then (p, d) :: rest else kv :: setFs rest p d

/-- Effect of one `Image.save` call on the filesystem: `append=True` adds a
page to the existing document (creating the file when absent, as the spec
describes append mode); otherwise the path is created or truncated with a
one-page document carrying the call's metadata. -/
def applySave (fs : Fs) (c : SaveCall) : Fs :=
  if c.append then
    match lookupFs fs c.path with
    | some doc => setFs fs c.path { doc with pages := doc.pages ++ [c.image] }
    | none =>
        setFs fs c.path
          { pages := [c.image], title := c.title, author := c.author, producer := c.producer }
  else
    setFs fs c.path
      { pages := [c.image], title := c.title, author := c.author, producer := c.producer }

/-- Effect of one event on the filesystem (warnings touch nothing). -/
def applyEvent (fs : Fs) : Event → Fs
  | .warn _ => fs
  | .save c => applySave fs c

/-- Effect of a trace of events on the filesystem. -/
def applyEvents (fs : Fs) (evs : List Event) : Fs :=
  evs.foldl applyEvent fs

/-- The warning text of src/dir2pdf.py lines 60-61. -/
def transparencyMsg (filename : String) : String :=
  "Image " ++ squote ++ filename ++ squote ++ " contains transparency; color will be off"

/-- src/dir2pdf.py lines 57-64 (`remove_transparency`): alpha-bearing modes
are always converted to RGB, and a warning is emitted exactly when the
alpha channel's extrema differ from (255, 255); other modes pass through
untouched.  Returns the resulting image and the warnings emitted. -/
def remove_transparency (image : Image) (filename : String) : Image × List Event :=
  if alphaModes.contains image.mode then
    if getextrema image.alpha = (255, 255) then
      (convertRGB image, [])
    else
      (convertRGB image, [Event.warn (transparencyMsg filename)])
  else
    (image, [])

/-- A directory entry as seen by `Path.iterdir`: a plain file (with the
image it decodes to, if opened) or a subdirectory with its own entries. -/
inductive FsEntry where
  | file (name : String) (im : Image)
  | dir (name : String) (entries : List FsEntry)

/-- The base name of an entry. -/
def FsEntry.name : FsEntry → String
  | .file n _ => n
  | .dir n _ => n

/-- Whether an entry is a plain file. -/
def FsEntry.isFile : FsEntry → Bool
  | .file _ _ => true
  | .dir _ _ => false

/-- `Image.open` on an entry: succeeds on files, raises on directories. -/
def openImage : FsEntry → Option Image
  | .file _ im => some im
  | .dir _ _ => none

/-- Path of an entry inside a directory. -/
def filePath (dirPath name : String) : String := dirPath ++ "/" ++ name

/-- Name order on entries, as `sorted(dir_path.iterdir())` orders the paths
of a single directory. -/
def entryLE (a b : FsEntry) : Prop := a.name ≤ b.name

instance : DecidableRel entryLE := fun a b => by
  unfold entryLE
  infer_instance

instance : IsTotal FsEntry entryLE :=
  ⟨fun a b => le_total a.name b.name⟩

instance : IsTrans FsEntry entryLE :=
  ⟨fun _ _ _ hab hbc => le_trans hab hbc⟩

/-- `sorted(dir_path.iterdir())`: the entries in ascending (stable) name
order. -/
def sortEntries (entries : List FsEntry) : List FsEntry :=
  List.insertionSort entryLE entries

/-- src/dir2pdf.py lines 51-54: the loop over `files[1:]`.  Each file is
opened (a directory aborts the run), normalized, and saved with
`append=True` and no metadata arguments.  Returns the events emitted up to
an abort together with the abort flag. -/
def appendPages (dirPath pdfPath : String) : List FsEntry → List Event × Bool
  | [] => ([], false)
  | e :: rest =>
    match openImage e with
    | none => ([], true)
    | some im =>
      let r := remove_transparency im (filePath dirPath e.name)
      let tail := appendPages dirPath pdfPath rest
      (r.2 ++
        Event.save
          { image := r.1, path := pdfPath, title := none, author := none,
            producer := none, append := true } :: tail.1,
        tail.2)

/-- src/dir2pdf.py lines 36-54 (`dir2pdf`): sort the directory entries,
save the first as a new PDF page with title, author and the fixed producer
string, then append the remaining pages.  `files[0]` on an empty directory
raises IndexError, modelled as an immediate abort. -/
def dir2pdf (dirPath : String) (entries : List FsEntry) (pdfPath : String)
    (title author : Option String) (append : Bool) : List Event × Bool :=
  match sortEntries entries with
  | [] => ([], true)
  | f0 :: rest =>
    match openImage f0 with
    | none => ([], true)
    | some im0 =>
      let r0 := remove_transparency im0 (filePath dirPath f0.name)
      let tail := appendPages dirPath pdfPath rest
      (r0.2 ++
        Event.save
          { image := r0.1, path := pdfPath, title := title, author := author,
            producer := some "dir2pdf", append := append } :: tail.1,
        tail.2)

/-- The result of one `re.Match`, abstracted: the whole matched text
(`group(0)`), the positional groups (`groups()`, a `none` entry for a group
that did not participate), and, when the pattern declares a group named
"n", that group's value (`none` again when it did not participate). -/
structure RegexMatch where
  whole : String
  groups : List (Option String)
  named_n : Option (Option String)

/-- A compiled regular expression, abstracted as its (anchored) `match`
function on a candidate string. -/
def Regex : Type := String → Option RegexMatch

/-- Find the first occurrence of the placeholder in a character list,
returning the characters before and after it. -/
def findPh : List Char → Option (List Char × List Char)
  | [] => none
  | c :: cs =>
    if c = lbrace ∧ cs.head? = some rbrace then some ([], cs.tail)
    else (findPh cs).map (fun p => (c :: p.1, p.2))

/-- Number of placeholder occurrences in a character list.  Occurrences
cannot overlap, so scanning one character at a time counts them. -/
def countPh : List Char → Nat
  | [] => 0
  | c :: cs => (if c = lbrace ∧ cs.head? = some rbrace then 1 else 0) + countPh cs

/-- The substring test of src/dir2pdf.py line 149. -/
def containsPlaceholder (s : String) : Bool :=
  (findPh s.toList).isSome

/-- Number of placeholders in a template string. -/
def countPlaceholders (s : String) : Nat :=
  countPh s.toList

/-- `str(pdf_path).format(n)` for templates whose braces occur only as
plain placeholder fields: no placeholder leaves the template unchanged
(surplus arguments are ignored), one placeholder is replaced by `n`, and
two or more raise IndexError (there is a single argument), modelled as
`none`. -/
def pyFormatOne (template n : String) : Option String :=
  match findPh template.toList with
  | none => some template
  | some (pre, post) =>
    if (findPh post).isSome then none
    else some (String.mk (pre ++ n.toList ++ post))

/-- The warning text of src/dir2pdf.py lines 75-76. -/
def notDirMsg (p : String) : String :=
  "Matching file " ++ p ++ " is not a directory; ignored"

/-- The warning text of src/dir2pdf.py lines 87-88. -/
def emptyCaptureMsg (p : String) : String :=
  "Empty capturing group for " ++ p ++ "; using name instead"

/-- The warning text of src/dir2pdf.py line 94. -/
def skipMsg (pdf : String) : String :=
  "skipping file " ++ pdf ++ ": file already exists"

/-- src/dir2pdf.py lines 79-89: select the capture value of a match.  The
group named "n" is used when the pattern declares one, else the first
positional group when any exist, else the whole match; a falsy selection
(a non-participating group, so `None`, or an empty string) is replaced by
the subdirectory's own name with a warning.  Returns the value used and
the warnings emitted. -/
def captureN (m : RegexMatch) (subdirName subdirPath : String) : String × List Event :=
  let n : Option String :=
    match m.named_n with
    | some v => v
    | none =>
      match m.groups with
      | [] => some m.whole
      | g :: _ => g
  match n with
  | none => (subdirName, [Event.warn (emptyCaptureMsg subdirPath)])
  | some s =>
    if s = "" then (subdirName, [Event.warn (emptyCaptureMsg subdirPath)])
    else (s, [])

/-- The running state of a dispatch: the filesystem, the events emitted so
far, and whether an uncaught exception has ended the run. -/
structure RunState where
  fs : Fs
  events : List Event
  aborted : Bool

/-- Append events to a running state. -/
def addEvents (st : RunState) (evs : List Event) : RunState :=
  { st with events := st.events ++ evs }

/-- src/dir2pdf.py lines 69-97: the body of `subdirs2pdf` over the sorted
entries of the base directory.  Non-matching entries are skipped silently;
matching non-directories are skipped with a warning; otherwise the capture
value fills the output template, an existing output path without append
mode is skipped with a warning, and `dir2pdf` runs on the subdirectory.
An abort (uncaught exception) stops the whole loop. -/
def subdirsLoop (basePath tmpl : String) (rx : Regex) (title author : Option String)
    (append : Bool) : List FsEntry → RunState → RunState
  | [], st => st
  | e :: rest, st =>
    match rx e.name with
    | none => subdirsLoop basePath tmpl rx title author append rest st
    | some m =>
      match e with
      | FsEntry.file name _ =>
        subdirsLoop basePath tmpl rx title author append rest
          (addEvents st [Event.warn (notDirMsg (filePath basePath name))])
      | FsEntry.dir name files =>
        match pyFormatOne tmpl (captureN m name (filePath basePath name)).1 with
        | none =>
          { fs := st.fs,
            events := st.events ++ (captureN m name (filePath basePath name)).2,
            aborted := true }
        | some pdf =>
          if !append && (lookupFs st.fs pdf).isSome then
            subdirsLoop basePath tmpl rx title author append rest
              (addEvents st ((captureN m name (filePath basePath name)).2 ++
                [Event.warn (skipMsg pdf)]))
          else if (dir2pdf (filePath basePath name) files pdf title author append).2 then
            { fs := applyEvents st.fs
                (dir2pdf (filePath basePath name) files pdf title author append).1,
              events := st.events ++ (captureN m name (filePath basePath name)).2 ++
                (dir2pdf (filePath basePath name) files pdf title author append).1,
              aborted := true }
          else
            subdirsLoop basePath tmpl rx title author append rest
              { fs := applyEvents st.fs
                  (dir2pdf (filePath basePath name) files pdf title author append).1,
                events := st.events ++ (captureN m name (filePath basePath name)).2 ++
                  (dir2pdf (filePath basePath name) files pdf title author append).1,
                aborted := (dir2pdf (filePath basePath name) files pdf title author append).2 }

/-- src/dir2pdf.py lines 67-97 (`subdirs2pdf`): dispatch over the base
directory's entries in sorted order. -/
def subdirs2pdf (basePath : String) (entries : List FsEntry) (tmpl : String)
    (rx : Regex) (title author : Option String) (append : Bool) (fs0 : Fs) : RunState :=
  subdirsLoop basePath tmpl rx title author append (sortEntries entries)
    { fs := fs0, events := [], aborted := false }

/-- The parsed command-line arguments. -/
structure Args where
  pdf : String
  dir : String
  title : Option String
  author : Option String
  append : Bool
  subdirs : Option Regex

/-- The usage error of src/dir2pdf.py lines 150-151. -/
def subdirsUsageMsg : String :=
  "if --subdirs is given, PDF must contain format field " ++ placeholderStr

/-- src/dir2pdf.py lines 155-166: the directory checks and the dispatch.
`dirStat` is `none` when the directory argument is missing or not a
directory, `some entries` otherwise. -/
def mainChecked (args : Args) (dirStat : Option (List FsEntry)) (fs0 : Fs) :
    Except String RunState :=
  match dirStat with
  | none => Except.error (args.dir ++ " is not a directory")
  | some entries =>
    match entries with
    | [] => Except.error ("no files in " ++ args.dir)
    | _ :: _ =>
      match args.subdirs with
      | none =>
        let r := dir2pdf args.dir entries args.pdf args.title args.author args.append
        Except.ok { fs := applyEvents fs0 r.1, events := r.1, aborted := r.2 }
      | some rx =>
        Except.ok (subdirs2pdf args.dir entries args.pdf rx args.title args.author
          args.append fs0)

/-- src/dir2pdf.py lines 138-166 (`main`, after argument parsing): in
subdirs mode the output template must contain the placeholder (a usage
error otherwise); in plain mode without append the output path must not
already exist; then the directory checks run and the work is dispatched.
An `Except.error` is a `sys.exit`/usage failure before any conversion. -/
def main (args : Args) (dirStat : Option (List FsEntry)) (fs0 : Fs) :
    Except String RunState :=
  match args.subdirs with
  | some _ =>
    if !containsPlaceholder args.pdf then Except.error subdirsUsageMsg
    else mainChecked args dirStat fs0
  | none =>
    if !args.append && (lookupFs fs0 args.pdf).isSome then
      Except.error (args.pdf ++ " already exists")
    else mainChecked args dirStat fs0

/-- The capture-value selection as the specification words it: the named
capture group "n" when the pattern declares one, otherwise the first
positional capture group, otherwise the entire match.  A `none` entry is a
declared group that did not participate in the match. -/
def specSelectedValue (m : RegexMatch) : Option String :=
  if m.named_n.isSome then m.named_n.getD none
  else if m.groups.isEmpty then some m.whole
  else m.groups.headD none

/-- The capture value as the specification words it: the selected value,
except that an empty selection (a non-participating group or an empty
string) is replaced by the subdirectory's own name together with a warning
flag. -/
def specCaptureValue (m : RegexMatch) (subdirName : String) : String × Bool :=
  match specSelectedValue m with
  | none => (subdirName, true)
  | some s => if s = "" then (subdirName, true) else (s, false)

/-- Every entry of the list is a plain file. -/
def AllFiles (l : List FsEntry) : Prop := ∀ e ∈ l, e.isFile = true

/-- The image written to the PDF for a file entry: the decoded image after
transparency normalization.  (The directory case never occurs under
`AllFiles`.) -/
def processedImage (dirPath : String) : FsEntry → Image
  | .file n im => (remove_transparency im (filePath dirPath n)).1
  | .dir _ _ => { mode := "RGB", alpha := [], content := 0 }

/-- The checks of src/dir2pdf.py lines 148-153 succeed: in subdirs mode the
template contains the placeholder, and in plain mode either append mode is
on or the output path does not exist yet. -/
def validationPasses (args : Args) (fs : Fs) : Prop :=
  match args.subdirs with
  | some _ => containsPlaceholder args.pdf = true
  | none => args.append = true ∨ lookupFs fs args.pdf = none

/-- A fully opaque RGBA image: every alpha sample is 255. -/
def opaqueRGBA : Image := { mode := "RGBA", alpha := [255, 255], content := 0 }

/-- A plain RGB image used in concrete instantiations. -/
def imRGB : Image := { mode := "RGB", alpha := [], content := 2 }

/-- An empty PDF document used in concrete instantiations. -/
def docEmpty : PdfDoc := { pages := [], title := none, author := none, producer := none }

/-- A pattern matching every name whole, with no capture groups. -/
def rxAny : Regex := fun s => some { whole := s, groups := [], named_n := none }

/-- A pattern matching no name at all. -/
def rxNone : Regex := fun _ => none

/-- A pattern matching every name with a single positional group "1". -/
def rxG1 : Regex := fun _ => some { whole := "s", groups := [some "1"], named_n := none }

/-- Plain-mode arguments used in concrete instantiations. -/
def argsPlain : Args :=
  { pdf := "out.pdf", dir := "d", title := none, author := none, append := false,
    subdirs := none }

/-- An output template holding two placeholders. -/
def twoPhTemplate : String := "a" ++ placeholderStr ++ placeholderStr ++ ".pdf"

/-- Subdirs-mode arguments whose template holds two placeholders. -/
def argsTwoPh : Args :=
  { pdf := twoPhTemplate, dir := "d", title := none, author := none, append := false,
    subdirs := some rxAny }

/-- A template holding a single placeholder. -/
def onePhTemplate : String := "o" ++ placeholderStr ++ ".pdf"

/-- Two image files used in concrete instantiations. -/
def entsW : List FsEntry := [FsEntry.file "b" imRGB, FsEntry.file "a" imRGB]

/-- A run state whose filesystem already holds the file "o1.pdf". -/
def stExisting : RunState :=
  { fs := [("o1.pdf", docEmpty)], events := [], aborted := false }

/-- A run state over the empty filesystem. -/
def stEmpty : RunState := { fs := [], events := [], aborted := false }

/-! ### Helper lemmas about extrema -/

lemma foldl_min_le_init (rest : List Nat) (a : Nat) : rest.foldl Nat.min a ≤ a := by
  induction rest generalizing a with
  | nil => exact Nat.le_refl a
  | cons b rs ih =>
    calc (b :: rs).foldl Nat.min a = rs.foldl Nat.min (Nat.min a b) := rfl
    _ ≤ Nat.min a b := ih _
    _ ≤ a := Nat.min_le_left _ _

lemma foldl_min_le_mem (rest : List Nat) (a : Nat) :
    ∀ x ∈ rest, rest.foldl Nat.min a ≤ x := by
  induction rest generalizing a with
  | nil => intro x hx; cases hx
  | cons b rs ih =>
    intro x hx
    rcases List.mem_cons.mp hx with h | h
    · subst h
      exact Nat.le_trans (foldl_min_le_init rs _) (Nat.min_le_right _ _)
    · exact ih _ x h

lemma le_foldl_min (rest : List Nat) (a c : Nat) (ha : c ≤ a)
    (hmem : ∀ x ∈ rest, c ≤ x) : c ≤ rest.foldl Nat.min a := by
  induction rest generalizing a with
  | nil => exact ha
  | cons b rs ih =>
    refine ih (Nat.min a b) (Nat.le_min.mpr ⟨ha, hmem b (List.mem_cons_self b rs)⟩) ?_
    intro x hx
    exact hmem x (List.mem_cons_of_mem b hx)

lemma init_le_foldl_max (rest : List Nat) (a : Nat) : a ≤ rest.foldl Nat.max a := by
  induction rest generalizing a with
  | nil => exact Nat.le_refl a
  | cons b rs ih =>
    calc a ≤ Nat.max a b := Nat.le_max_left _ _
    _ ≤ rs.foldl Nat.max (Nat.max a b) := ih _
    _ = (b :: rs).foldl Nat.max a := rfl

lemma mem_le_foldl_max (rest : List Nat) (a : Nat) :
    ∀ x ∈ rest, x ≤ rest.foldl Nat.max a := by
  induction rest generalizing a with
  | nil => intro x hx; cases hx
  | cons b rs ih =>
    intro x hx
    rcases List.mem_cons.mp hx with h | h
    · subst h
      exact Nat.le_trans (Nat.le_max_right _ _) (init_le_foldl_max rs _)
    · exact ih _ x h

lemma foldl_max_le (rest : List Nat) (a c : Nat) (ha : a ≤ c)
    (hmem : ∀ x ∈ rest, x ≤ c) : rest.foldl Nat.max a ≤ c := by
  induction rest generalizing a with
  | nil => exact ha
  | cons b rs ih =>
    refine ih (Nat.max a b) (Nat.max_le.mpr ⟨ha, hmem b (List.mem_cons_self b rs)⟩) ?_
    intro x hx
    exact hmem x (List.mem_cons_of_mem b hx)

/-- On a nonempty channel, the extrema are `(255, 255)` exactly when every
sample is 255. -/
lemma getextrema_eq_iff (l : List Nat) (h : l ≠ []) :
    getextrema l = (255, 255) ↔ ∀ x ∈ l, x = 255 := by
  match l with
  | [] => exact absurd rfl h
  | a :: rest =>
    unfold getextrema
    rw [Prod.mk.injEq]
    constructor
    · rintro ⟨hmin, hmax⟩
      intro x hx
      rcases List.mem_cons.mp hx with hxa | hxr
      · subst hxa
        have h1 : rest.foldl Nat.min x ≤ x := foldl_min_le_init rest x
        have h2 : x ≤ rest.foldl Nat.max x := init_le_foldl_max rest x
        omega
      · have h1 : rest.foldl Nat.min a ≤ x := foldl_min_le_mem rest a x hxr
        have h2 : x ≤ rest.foldl Nat.max a := mem_le_foldl_max rest a x hxr
        omega
    · intro hall
      have ha : a = 255 := hall a (List.mem_cons_self a rest)
      have hr : ∀ x ∈ rest, x = 255 := fun x hx => hall x (List.mem_cons_of_mem a hx)
      constructor
      · have h1 : rest.foldl Nat.min a ≤ a := foldl_min_le_init rest a
        have h2 : 255 ≤ rest.foldl Nat.min a :=
          le_foldl_min rest a 255 (by omega) (fun x hx => by have := hr x hx; omega)
        omega
      · have h1 : a ≤ rest.foldl Nat.max a := init_le_foldl_max rest a
        have h2 : rest.foldl Nat.max a ≤ 255 :=
          foldl_max_le rest a 255 (by omega) (fun x hx => by have := hr x hx; omega)
        omega

/-! ### Helper lemmas about the filesystem and event traces -/

lemma applyEvents_append (fs : Fs) (a b : List Event) :
    applyEvents fs (a ++ b) = applyEvents (applyEvents fs a) b :=
  List.foldl_append applyEvent fs a b

lemma applyEvents_cons_save (fs : Fs) (c : SaveCall) (evs : List Event) :
    applyEvents fs (Event.save c :: evs) = applyEvents (applySave fs c) evs := rfl

lemma applyEvents_warn_only (evs : List Event) (h : ∀ e ∈ evs, e.isWarn = true) :
    ∀ fs, applyEvents fs evs = fs := by
  induction evs with
  | nil => intro fs; rfl
  | cons e es ih =>
    intro fs
    cases e with
    | warn m =>
      exact ih (fun x hx => h x (List.mem_cons_of_mem _ hx)) fs
    | save c =>
      have hc := h (Event.save c) (List.mem_cons_self _ _)
      simp [Event.isWarn] at hc

lemma remove_transparency_warns (im : Image) (fn : String) :
    ∀ e ∈ (remove_transparency im fn).2, e.isWarn = true := by
  unfold remove_transparency
  by_cases hm : alphaModes.contains im.mode
  · rw [if_pos hm]
    by_cases hext : getextrema im.alpha = (255, 255)
    · rw [if_pos hext]
      intro e he
      cases he
    · rw [if_neg hext]
      intro e he
      rcases List.mem_singleton.mp he with h
      subst h
      rfl
  · rw [if_neg hm]
    intro e he
    cases he

lemma lookupFs_setFs_self (fs : Fs) (p : String) (d : PdfDoc) :
    lookupFs (setFs fs p d) p = some d := by
  induction fs with
  | nil => simp [setFs, lookupFs, List.find?]
  | cons kv rest ih =>
    unfold setFs
    by_cases hk : kv.1 = p
    · rw [if_pos hk]
      simp [lookupFs, List.find?]
    · rw [if_neg hk]
      unfold lookupFs at ih ⊢
      rw [List.find?_cons_of_neg _ (by simpa using hk)]
      exact ih

/-- The run over `files[1:]`: on a list of plain files it never aborts,
all its save calls carry no metadata and append to the given path, and its
effect on a filesystem already holding a document at that path is to
append the processed images as pages, in order. -/
lemma appendPages_spec (dirPath pdfPath : String) (L : List FsEntry) (hall : AllFiles L) :
    (appendPages dirPath pdfPath L).2 = false ∧
    (∀ c, Event.save c ∈ (appendPages dirPath pdfPath L).1 →
      c.title = none ∧ c.author = none ∧ c.producer = none ∧ c.append = true ∧
        c.path = pdfPath) ∧
    ∀ fs doc, lookupFs fs pdfPath = some doc →
      lookupFs (applyEvents fs (appendPages dirPath pdfPath L).1) pdfPath =
        some { doc with pages := doc.pages ++ L.map (processedImage dirPath) } := by
  induction L with
  | nil =>
    refine ⟨rfl, ?_, ?_⟩
    · intro c hc
      exact absurd hc (List.not_mem_nil _)
    · intro fs doc hdoc
      simpa using hdoc
  | cons e es ih =>
    have he : e.isFile = true := hall e (List.mem_cons_self _ _)
    match e, he with
    | FsEntry.file n im, _ =>
      have hes : AllFiles es := fun x hx => hall x (List.mem_cons_of_mem _ hx)
      obtain ⟨ihab, ihsave, ihfs⟩ := ih hes
      have hunfold :
          appendPages dirPath pdfPath (FsEntry.file n im :: es) =
            ((remove_transparency im (filePath dirPath n)).2 ++
              Event.save
                { image := (remove_transparency im (filePath dirPath n)).1,
                  path := pdfPath, title := none, author := none,
                  producer := none, append := true } ::
              (appendPages dirPath pdfPath es).1,
            (appendPages dirPath pdfPath es).2) := rfl
      refine ⟨?_, ?_, ?_⟩
      · rw [hunfold]
        exact ihab
      · rw [hunfold]
        intro c hc
        rcases List.mem_append.mp hc with hpre | hrest
        · have := remove_transparency_warns im (filePath dirPath n) _ hpre
          simp [Event.isWarn] at this
        · rcases List.mem_cons.mp hrest with hc0 | htail
          · cases hc0
            exact ⟨rfl, rfl, rfl, rfl, rfl⟩
          · exact ihsave c htail
      · intro fs doc hdoc
        rw [hunfold]
        dsimp only
        rw [applyEvents_append,
          applyEvents_warn_only _ (remove_transparency_warns im (filePath dirPath n)) fs,
          applyEvents_cons_save]
        have hsave :
            applySave fs
              { image := (remove_transparency im (filePath dirPath n)).1,
                path := pdfPath, title := none, author := none,
                producer := none, append := true } =
            setFs fs pdfPath
              { doc with pages :=
                  doc.pages ++ [(remove_transparency im (filePath dirPath n)).1] } := by
          unfold applySave
          rw [if_pos rfl]
          dsimp only
          rw [hdoc]
        rw [hsave]
        have hlook := lookupFs_setFs_self fs pdfPath
          { doc with pages := doc.pages ++ [(remove_transparency im (filePath dirPath n)).1] }
        rw [ihfs _ _ hlook]
        simp [processedImage]

/-- The shape of a full `dir2pdf` run on a nonempty directory of plain
files: the sorted entries start with some file, the run does not abort,
and the trace is that file's warnings, the metadata-bearing first save,
then the `files[1:]` trace. -/
lemma dir2pdf_trace (dirPath pdfPath : String) (title author : Option String) (append : Bool)
    (entries : List FsEntry) (hne : entries ≠ []) (hall : AllFiles entries) :
    ∃ n0 im0 rest,
      sortEntries entries = FsEntry.file n0 im0 :: rest ∧
      AllFiles rest ∧
      (dir2pdf dirPath entries pdfPath title author append).2 = false ∧
      (dir2pdf dirPath entries pdfPath title author append).1 =
        (remove_transparency im0 (filePath dirPath n0)).2 ++
          Event.save
            { image := (remove_transparency im0 (filePath dirPath n0)).1,
              path := pdfPath, title := title, author := author,
              producer := some "dir2pdf", append := append } ::
          (appendPages dirPath pdfPath rest).1 := by
  have hsortAll : AllFiles (sortEntries entries) := by
    intro e he
    exact hall e ((List.mem_insertionSort entryLE).mp he)
  have hsne : sortEntries entries ≠ [] := by
    intro hcon
    apply hne
    have hlen := List.length_insertionSort entryLE entries
    unfold sortEntries at hcon
    rw [hcon] at hlen
    exact List.eq_nil_of_length_eq_zero (by simpa using hlen.symm)
  obtain ⟨f0, rest, hsort⟩ := List.exists_cons_of_ne_nil hsne
  have hf0 : f0.isFile = true := by
    refine hsortAll f0 ?_
    rw [hsort]
    exact List.mem_cons_self _ _
  match f0, hf0 with
  | FsEntry.file n0 im0, _ =>
    have hrest : AllFiles rest := by
      intro e he
      refine hsortAll e ?_
      rw [hsort]
      exact List.mem_cons_of_mem _ he
    obtain ⟨hab, -, -⟩ := appendPages_spec dirPath pdfPath rest hrest
    refine ⟨n0, im0, rest, hsort, hrest, ?_, ?_⟩
    · unfold dir2pdf
      rw [hsort]
      dsimp only [openImage]
      exact hab
    · unfold dir2pdf
      rw [hsort]
      dsimp only [openImage, FsEntry.name]

/-! ### Helper lemmas about placeholders -/

lemma findPh_isSome_iff (l : List Char) : (findPh l).isSome = true ↔ 1 ≤ countPh l := by
  induction l with
  | nil => simp [findPh, countPh]
  | cons c cs ih =>
    unfold findPh countPh
    by_cases hc : c = lbrace ∧ cs.head? = some rbrace
    · rw [if_pos hc, if_pos hc]
      simp
    · rw [if_neg hc, if_neg hc]
      simpa using ih

/-! ### Claim C2 -/

/-- Claim C2 as stated is false: `opaqueRGBA` has an alpha channel that is
uniformly 255, and `remove_transparency` emits no warning on it, yet its
color mode is changed from "RGBA" to "RGB" rather than passed through
unmodified (the `convert('RGB')` at src/dir2pdf.py line 62 runs for every
alpha-bearing mode, not only for transparent ones). -/
theorem C2_counterexample :
    (remove_transparency opaqueRGBA "img.png").2 = [] ∧
    (remove_transparency opaqueRGBA "img.png").1.mode = "RGB" ∧
    opaqueRGBA.mode = "RGBA" := by
  refine ⟨?_, ?_, rfl⟩ <;> rfl

/-- Claim C2 amended: for an image with a nonempty alpha-channel model, a
warning is emitted exactly when the mode is alpha-bearing and the alpha
channel is not uniformly 255; every alpha-bearing image is converted to
RGB (even a fully opaque one), while an image whose mode carries no alpha
is passed through unmodified. -/
theorem C2_amended (im : Image) (fn : String) (h : im.alpha ≠ []) :
    ((remove_transparency im fn).2 ≠ [] ↔
      (alphaModes.contains im.mode = true ∧ ¬ ∀ x ∈ im.alpha, x = 255)) ∧
    (remove_transparency im fn).1 =
      (if alphaModes.contains im.mode then convertRGB im else im) := by
  unfold remove_transparency
  by_cases hm : alphaModes.contains im.mode
  · rw [if_pos hm]
    by_cases hext : getextrema im.alpha = (255, 255)
    · rw [if_pos hext]
      have hall : ∀ x ∈ im.alpha, x = 255 := (getextrema_eq_iff im.alpha h).mp hext
      refine ⟨⟨fun hne => absurd rfl hne, ?_⟩, (if_pos hm).symm⟩
      rintro ⟨-, hn⟩
      exact absurd hall hn
    · rw [if_neg hext]
      have hnall : ¬ ∀ x ∈ im.alpha, x = 255 :=
        fun hall => hext ((getextrema_eq_iff im.alpha h).mpr hall)
      refine ⟨⟨fun _ => ⟨hm, hnall⟩, fun _ => ?_⟩, (if_pos hm).symm⟩
      exact fun hcon => List.noConfusion hcon
  · rw [if_neg hm]
    refine ⟨⟨fun hne => absurd rfl hne, ?_⟩, (if_neg hm).symm⟩
    rintro ⟨hc, -⟩
    exact absurd hc hm

/-- Witness for `C2_amended` at a translucent LA image. -/
theorem C2_amended_witness :
    (({ mode := "LA", alpha := [255, 7], content := 5 } : Image).alpha ≠ []) ∧
    ((remove_transparency { mode := "LA", alpha := [255, 7], content := 5 } "p.png").2 ≠ [] ↔
      (alphaModes.contains ({ mode := "LA", alpha := [255, 7], content := 5 } : Image).mode = true ∧
        ¬ ∀ x ∈ ({ mode := "LA", alpha := [255, 7], content := 5 } : Image).alpha, x = 255)) ∧
    (remove_transparency { mode := "LA", alpha := [255, 7], content := 5 } "p.png").1 =
      (if alphaModes.contains ({ mode := "LA", alpha := [255, 7], content := 5 } : Image).mode
        then convertRGB { mode := "LA", alpha := [255, 7], content := 5 } else
          { mode := "LA", alpha := [255, 7], content := 5 }) :=
  ⟨by decide, C2_amended { mode := "LA", alpha := [255, 7], content := 5 } "p.png" (by decide)⟩

/-! ### Claim C1 -/

/-- Claim C1: on a directory of N ≥ 1 image files, converted fresh
(append off), `dir2pdf` completes without error and the output document has
exactly one page per input file — the processed images in ascending
lexicographic filename order (the sort is a permutation of the entries and
is sorted under the name order, and the page list is its image, so the
page count is N). -/
theorem C1_pages_sorted (dirPath pdfPath : String) (title author : Option String)
    (entries : List FsEntry) (fs0 : Fs) (hne : entries ≠ []) (hall : AllFiles entries) :
    (dir2pdf dirPath entries pdfPath title author false).2 = false ∧
    lookupFs (applyEvents fs0 (dir2pdf dirPath entries pdfPath title author false).1) pdfPath =
      some { pages := (sortEntries entries).map (processedImage dirPath),
             title := title, author := author, producer := some "dir2pdf" } ∧
    ((sortEntries entries).map (processedImage dirPath)).length = entries.length ∧
    List.Sorted entryLE (sortEntries entries) ∧
    List.Perm (sortEntries entries) entries := by
  obtain ⟨n0, im0, rest, hsort, hrest, hab, htrace⟩ :=
    dir2pdf_trace dirPath pdfPath title author false entries hne hall
  obtain ⟨-, -, ihfs⟩ := appendPages_spec dirPath pdfPath rest hrest
  refine ⟨hab, ?_, ?_, ?_, ?_⟩
  · rw [htrace, applyEvents_append,
      applyEvents_warn_only _ (remove_transparency_warns im0 (filePath dirPath n0)) fs0,
      applyEvents_cons_save]
    have hsave :
        applySave fs0
          { image := (remove_transparency im0 (filePath dirPath n0)).1,
            path := pdfPath, title := title, author := author,
            producer := some "dir2pdf", append := false } =
        setFs fs0 pdfPath
          { pages := [(remove_transparency im0 (filePath dirPath n0)).1],
            title := title, author := author, producer := some "dir2pdf" } := rfl
    rw [hsave]
    rw [ihfs _ _ (lookupFs_setFs_self fs0 pdfPath _)]
    rw [hsort]
    simp [processedImage]
  · rw [List.length_map]
    exact List.length_insertionSort entryLE entries
  · exact List.sorted_insertionSort entryLE entries
  · exact List.perm_insertionSort entryLE entries

/-- Witness for `C1_pages_sorted` at a concrete two-file directory. -/
theorem C1_pages_sorted_witness :
    (entsW ≠ []) ∧ AllFiles entsW ∧
    ((dir2pdf "d" entsW "out.pdf" (some "T") none false).2 = false ∧
      lookupFs (applyEvents [] (dir2pdf "d" entsW "out.pdf" (some "T") none false).1)
          "out.pdf" =
        some { pages := (sortEntries entsW).map (processedImage "d"),
               title := some "T", author := none, producer := some "dir2pdf" } ∧
      ((sortEntries entsW).map (processedImage "d")).length = entsW.length ∧
      List.Sorted entryLE (sortEntries entsW) ∧
      List.Perm (sortEntries entsW) entsW) :=
  ⟨by simp [entsW], show ∀ e ∈ entsW, e.isFile = true by decide,
    C1_pages_sorted "d" "out.pdf" (some "T") none entsW [] (by simp [entsW])
      (show ∀ e ∈ entsW, e.isFile = true by decide)⟩

/-! ### Claim C3 -/

/-- Claim C3: the capture value the Dispatcher uses (src/dir2pdf.py lines
79-89, embedded as `captureN`) agrees with the specification's selection
rule (`specCaptureValue`): the named group "n" when declared, else the
first positional group, else the whole match; an empty selection falls
back to the subdirectory's own name with a warning (the second component
records whether a warning was emitted). -/
theorem C3_capture_selection (m : RegexMatch) (name path : String) :
    ((captureN m name path).1, !(captureN m name path).2.isEmpty) =
      specCaptureValue m name := by
  unfold captureN specCaptureValue specSelectedValue
  cases m.named_n with
  | some v =>
    cases v with
    | none => rfl
    | some s =>
      by_cases hs : s = ""
      · subst hs
        rfl
      · simp [hs]
  | none =>
    cases m.groups with
    | nil =>
      by_cases hw : m.whole = ""
      · simp [hw]
      · simp [hw]
    | cons g gs =>
      cases g with
      | none => rfl
      | some s =>
        by_cases hs : s = ""
        · subst hs
          rfl
        · simp [hs]

/-! ### Claim C4 -/

/-- Claim C4: when the source directory has zero entries and the checks
before the directory checks succeed, `main` exits with the precondition
error "no files in ..." — the `Except.error` return means no conversion
ran and no output file was written (an error return carries no filesystem
effect).  Without `validationPasses`, the run still fails before any
conversion, merely with an earlier error message. -/
theorem C4_empty_dir_error (args : Args) (fs : Fs) (h : validationPasses args fs) :
    main args (some []) fs = Except.error ("no files in " ++ args.dir) := by
  unfold main validationPasses at *
  cases hs : args.subdirs with
  | some rx =>
    rw [hs] at h
    dsimp only at h
    rw [h]
    rfl
  | none =>
    rw [hs] at h
    dsimp only at h
    rcases h with h | h
    · rw [h]
      rfl
    · rw [h]
      simp only [Option.isSome_none, Bool.and_false]
      rfl

/-- Witness for `C4_empty_dir_error` at concrete plain-mode arguments. -/
theorem C4_empty_dir_error_witness :
    validationPasses argsPlain [] ∧
    main argsPlain (some []) [] = Except.error ("no files in " ++ argsPlain.dir) :=
  ⟨Or.inr rfl, C4_empty_dir_error argsPlain [] (Or.inr rfl)⟩

/-! ### Claim C6 -/

/-- Claim C6: in plain mode without append, when the output path already
exists `main` exits with the "already exists" error whatever the state of
the directory argument, and the `Except.error` return carries no
filesystem effect: the existing file is untouched.  `main` is a function
of the arguments and the filesystem, so repeated runs against the same
state return this same error (idempotent failure). -/
theorem C6_existing_output_error (args : Args) (dirStat : Option (List FsEntry)) (fs : Fs)
    (hsub : args.subdirs = none) (hap : args.append = false)
    (hex : (lookupFs fs args.pdf).isSome = true) :
    main args dirStat fs = Except.error (args.pdf ++ " already exists") := by
  unfold main
  rw [hsub]
  dsimp only
  rw [hap, hex]
  rfl

/-- Witness for `C6_existing_output_error` at a filesystem already holding
the output path. -/
theorem C6_existing_output_error_witness :
    argsPlain.subdirs = none ∧ argsPlain.append = false ∧
    (lookupFs [("out.pdf", docEmpty)] argsPlain.pdf).isSome = true ∧
    main argsPlain none [("out.pdf", docEmpty)] =
      Except.error (argsPlain.pdf ++ " already exists") :=
  ⟨rfl, rfl, rfl, C6_existing_output_error argsPlain none [("out.pdf", docEmpty)] rfl rfl rfl⟩

/-! ### Claim C5 -/

/-- Claim C5: in the dispatch loop without append mode, a matched
subdirectory whose computed output path already exists is skipped with a
warning — the step adds only warning events (`addEvents` leaves the
filesystem component untouched, so the existing file is not overwritten)
and the loop continues with the remaining entries. -/
theorem C5_skip_existing (basePath tmpl : String) (rx : Regex) (title author : Option String)
    (name : String) (files rest : List FsEntry) (st : RunState) (m : RegexMatch)
    (pdf : String) (hm : rx name = some m)
    (hpdf : pyFormatOne tmpl (captureN m name (filePath basePath name)).1 = some pdf)
    (hex : (lookupFs st.fs pdf).isSome = true) :
    subdirsLoop basePath tmpl rx title author false (FsEntry.dir name files :: rest) st =
      subdirsLoop basePath tmpl rx title author false rest
        (addEvents st ((captureN m name (filePath basePath name)).2 ++
          [Event.warn (skipMsg pdf)])) := by
  simp only [subdirsLoop, FsEntry.name, hm, hpdf, hex, Bool.not_false, Bool.true_and, if_true]

/-- Witness for `C5_skip_existing`: two names computing the same output
"o1.pdf", the second attempt hitting the file the first wrote. -/
theorem C5_skip_existing_witness :
    (lookupFs stExisting.fs "o1.pdf").isSome = true ∧
    subdirsLoop "b" onePhTemplate rxG1 none none false [FsEntry.dir "s" []] stExisting =
      subdirsLoop "b" onePhTemplate rxG1 none none false []
        (addEvents stExisting
          ((captureN { whole := "s", groups := [some "1"], named_n := none } "s"
            (filePath "b" "s")).2 ++ [Event.warn (skipMsg "o1.pdf")])) :=
  ⟨rfl,
    C5_skip_existing "b" onePhTemplate rxG1 none none "s" [] [] stExisting
      { whole := "s", groups := [some "1"], named_n := none } "o1.pdf" rfl rfl rfl⟩

/-! ### Claim C7 -/

/-- Claim C7: in the dispatch loop, an entry whose name the pattern does
not match is skipped silently (the state is unchanged), and a matching
entry that is not a directory is skipped with a warning; in both cases the
loop goes on with the remaining entries, so neither case aborts the
dispatch. -/
theorem C7_skip_nonmatching_nondir (basePath tmpl : String) (rx : Regex)
    (title author : Option String) (append : Bool) (e : FsEntry) (rest : List FsEntry)
    (st : RunState) :
    (rx e.name = none →
      subdirsLoop basePath tmpl rx title author append (e :: rest) st =
        subdirsLoop basePath tmpl rx title author append rest st) ∧
    (∀ m, rx e.name = some m → e.isFile = true →
      subdirsLoop basePath tmpl rx title author append (e :: rest) st =
        subdirsLoop basePath tmpl rx title author append rest
          (addEvents st [Event.warn (notDirMsg (filePath basePath e.name))])) := by
  constructor
  · intro h
    simp only [subdirsLoop, h]
  · intro m hm hf
    match e, hf with
    | FsEntry.file name im, _ =>
      simp only [FsEntry.name] at hm ⊢
      simp only [subdirsLoop, FsEntry.name, hm]

/-- Witness for `C7_skip_nonmatching_nondir`: a name the pattern rejects
is passed over with no state change, and a matching plain file is passed
over with the not-a-directory warning. -/
theorem C7_skip_nonmatching_nondir_witness :
    (subdirsLoop "b" onePhTemplate rxNone none none false
        [FsEntry.file "x" imRGB] stEmpty =
      subdirsLoop "b" onePhTemplate rxNone none none false [] stEmpty) ∧
    (subdirsLoop "b" onePhTemplate rxAny none none false
        [FsEntry.file "x" imRGB] stEmpty =
      subdirsLoop "b" onePhTemplate rxAny none none false []
        (addEvents stEmpty
          [Event.warn (notDirMsg (filePath "b" (FsEntry.file "x" imRGB).name))])) :=
  ⟨(C7_skip_nonmatching_nondir "b" onePhTemplate rxNone none none false
      (FsEntry.file "x" imRGB) [] stEmpty).1 rfl,
    (C7_skip_nonmatching_nondir "b" onePhTemplate rxAny none none false
      (FsEntry.file "x" imRGB) [] stEmpty).2
      { whole := "x", groups := [], named_n := none } rfl rfl⟩

/-! ### Claim C8 -/

/-- Claim C8: the trace of a `dir2pdf` run decomposes as warnings, then the
first save call — the only one carrying the given title and author, the
fixed producer "dir2pdf" and the caller's append flag — then a tail in
which every save call passes no metadata arguments and appends
(`title`, `author`, `producer` all absent, `append` true). -/
theorem C8_metadata_first_page (dirPath pdfPath : String) (title author : Option String)
    (append : Bool) (entries : List FsEntry) (hne : entries ≠ [])
    (hall : AllFiles entries) :
    ∃ pre c post,
      (dir2pdf dirPath entries pdfPath title author append).1 =
        pre ++ Event.save c :: post ∧
      (∀ e ∈ pre, e.isWarn = true) ∧
      c.title = title ∧ c.author = author ∧ c.producer = some "dir2pdf" ∧
      c.append = append ∧ c.path = pdfPath ∧
      ∀ c2, Event.save c2 ∈ post →
        c2.title = none ∧ c2.author = none ∧ c2.producer = none ∧ c2.append = true := by
  obtain ⟨n0, im0, rest, hsort, hrest, hab, htrace⟩ :=
    dir2pdf_trace dirPath pdfPath title author append entries hne hall
  obtain ⟨-, hsaves, -⟩ := appendPages_spec dirPath pdfPath rest hrest
  refine ⟨(remove_transparency im0 (filePath dirPath n0)).2, _,
    (appendPages dirPath pdfPath rest).1, htrace,
    remove_transparency_warns im0 (filePath dirPath n0), rfl, rfl, rfl, rfl, rfl, ?_⟩
  intro c2 hc2
  obtain ⟨h1, h2, h3, h4, -⟩ := hsaves c2 hc2
  exact ⟨h1, h2, h3, h4⟩

/-- Witness for `C8_metadata_first_page` at a concrete two-file
directory. -/
theorem C8_metadata_first_page_witness :
    (entsW ≠ []) ∧ AllFiles entsW ∧
    ∃ pre c post,
      (dir2pdf "d" entsW "out.pdf" (some "T") (some "A") true).1 =
        pre ++ Event.save c :: post ∧
      (∀ e ∈ pre, e.isWarn = true) ∧
      c.title = some "T" ∧ c.author = some "A" ∧ c.producer = some "dir2pdf" ∧
      c.append = true ∧ c.path = "out.pdf" ∧
      ∀ c2, Event.save c2 ∈ post →
        c2.title = none ∧ c2.author = none ∧ c2.producer = none ∧ c2.append = true :=
  ⟨by simp [entsW], show ∀ e ∈ entsW, e.isFile = true by decide,
    C8_metadata_first_page "d" "out.pdf" (some "T") (some "A") true entsW
      (by simp [entsW]) (show ∀ e ∈ entsW, e.isFile = true by decide)⟩

/-! ### Claim C9 -/

/-- Claim C9 as stated is false: the template `twoPhTemplate` holds two
placeholders — so not exactly one — yet `main` in subdirs mode does not
reject it as a usage error: validation passes and the run proceeds to the
directory checks, here failing with the unrelated "no files" message.
The check at src/dir2pdf.py line 149 only tests that the placeholder
occurs somewhere in the template. -/
theorem C9_counterexample :
    countPlaceholders twoPhTemplate = 2 ∧
    main argsTwoPh (some []) [] = Except.error ("no files in " ++ argsTwoPh.dir) := by
  exact ⟨rfl, rfl⟩

/-- Claim C9 amended: in subdirs mode the template is validated, before the
Dispatcher runs, to contain at least one placeholder — `main` rejects it
with the usage error exactly when the placeholder does not occur — and
containing the placeholder is equivalent to a placeholder count of at
least one (not exactly one). -/
theorem C9_amended (args : Args) (rx : Regex) (dirStat : Option (List FsEntry)) (fs : Fs)
    (hsub : args.subdirs = some rx) :
    main args dirStat fs =
      (if containsPlaceholder args.pdf then mainChecked args dirStat fs
       else Except.error subdirsUsageMsg) ∧
    (containsPlaceholder args.pdf = true ↔ 1 ≤ countPlaceholders args.pdf) := by
  constructor
  · unfold main
    rw [hsub]
    dsimp only
    by_cases h : containsPlaceholder args.pdf = true
    · rw [h]
      rfl
    · have hb : containsPlaceholder args.pdf = false := Bool.eq_false_iff.mpr h
      rw [hb]
      rfl
  · unfold containsPlaceholder countPlaceholders
    exact findPh_isSome_iff args.pdf.toList

/-- Witness for `C9_amended` at the two-placeholder arguments. -/
theorem C9_amended_witness :
    (main argsTwoPh (some []) [] =
      (if containsPlaceholder argsTwoPh.pdf then mainChecked argsTwoPh (some []) []
       else Except.error subdirsUsageMsg)) ∧
    (containsPlaceholder argsTwoPh.pdf = true ↔ 1 ≤ countPlaceholders argsTwoPh.pdf) :=
  C9_amended argsTwoPh rxAny (some []) [] rfl

/-! ### Claim C10 -/

/-- Claim C10: the Converter checks emptiness nowhere — on an empty
directory `dir2pdf` aborts at once with no events (the `files[0]` access),
while under the caller's precondition of at least one (file) entry the
first-entry access cannot fail; and in the dispatch loop a matched empty
subdirectory that reaches the conversion step aborts the entire remaining
run: the result ignores the remaining entries altogether. -/
theorem C10_no_emptiness_check (dirPath pdfPath basePath tmpl : String) (rx : Regex)
    (title author : Option String) (append : Bool) :
    (dir2pdf dirPath [] pdfPath title author append = ([], true)) ∧
    (∀ entries, entries ≠ [] → AllFiles entries →
      (dir2pdf dirPath entries pdfPath title author append).2 = false) ∧
    (∀ name rest st m pdf, rx name = some m →
      pyFormatOne tmpl (captureN m name (filePath basePath name)).1 = some pdf →
      (!append && (lookupFs st.fs pdf).isSome) = false →
      subdirsLoop basePath tmpl rx title author append (FsEntry.dir name [] :: rest) st =
        { fs := st.fs,
          events := st.events ++ (captureN m name (filePath basePath name)).2,
          aborted := true }) := by
  refine ⟨rfl, ?_, ?_⟩
  · intro entries hne hall
    obtain ⟨-, -, -, -, -, hab, -⟩ :=
      dir2pdf_trace dirPath pdfPath title author append entries hne hall
    exact hab
  · intro name rest st m pdf hm hpdf hnoskip
    simp only [subdirsLoop, FsEntry.name, hm, hpdf, hnoskip, Bool.false_eq_true, if_false]
    have hempty : dir2pdf (filePath basePath name) [] pdf title author append =
        ([], true) := rfl
    rw [hempty]
    simp [applyEvents]

/-- Witness for `C10_no_emptiness_check`: the empty-directory abort, the
success of a nonempty directory, and the loop-wide abort on a matched
empty subdirectory followed by a further entry that is never processed. -/
theorem C10_no_emptiness_check_witness :
    (dir2pdf "d" [] "o.pdf" none none false = ([], true)) ∧
    ((dir2pdf "d" entsW "o.pdf" none none false).2 = false) ∧
    (subdirsLoop "b" onePhTemplate rxAny none none false
        (FsEntry.dir "s" [] :: [FsEntry.dir "t" entsW]) stEmpty =
      { fs := stEmpty.fs,
        events := stEmpty.events ++
          (captureN { whole := "s", groups := [], named_n := none } "s"
            (filePath "b" "s")).2,
        aborted := true }) :=
  ⟨(C10_no_emptiness_check "d" "o.pdf" "b" onePhTemplate rxAny none none false).1,
    (C10_no_emptiness_check "d" "o.pdf" "b" onePhTemplate rxAny none none false).2.1
      entsW (by simp [entsW]) (show ∀ e ∈ entsW, e.isFile = true by decide),
    (C10_no_emptiness_check "d" "o.pdf" "b" onePhTemplate rxAny none none false).2.2
      "s" [FsEntry.dir "t" entsW] stEmpty
      { whole := "s", groups := [], named_n := none } "os.pdf" rfl rfl rfl⟩

end Dir2pdf
